import Mathlib

/-!
Verification development for the merchant-code discovery and normalization
engine of a personal-finance web app.

The definitions below are shallow embeddings of the TypeScript source:

* `context-analyzer` (normalizers, code-structure analysis, context
  extraction, impact scoring);
* `merchant-inference` (learning lookup, inference control flow,
  context filtering);
* the IndexedDB operations for merchant discoveries (status updates);
* the merchant-discovery POST route (workflow orchestration).

JavaScript strings are modelled as `List Char` / `String` over the ASCII
range (all inputs of interest are ASCII); JavaScript numbers are modelled
as `ℚ`; `Date` objects are modelled as `Nat` tokens where equal tokens
mean the same object (JS `Set.has` on dates compares object identity).
Regex-based `String.replace` calls are translated rule by rule into
explicit scanning functions with matching leftmost / greedy / global
semantics.  Recursive scanners take a fuel argument instantiated with the
input length, which is always sufficient since every step consumes at
least one character.
-/

set_option maxRecDepth 100000

attribute [local semireducible] Rat.add Rat.sub Rat.mul Rat.inv Rat.ofScientific

namespace FinanceAnalyzer

/-! ## Character classes (JS regex classes, ASCII range) -/

/-- JS `\s` restricted to ASCII: space, tab, LF, VT, FF, CR. -/
def isJsSpace (c : Char) : Bool :=
  c = ' ' || c = '\t' || c = '\n' || c = '\x0b' || c = '\x0c' || c = '\r'

/-- JS `[A-Z]`. -/
def isUpperAlpha (c : Char) : Bool := 'A' ≤ c && c ≤ 'Z'

/-- JS `[a-z]`. -/
def isLowerAlpha (c : Char) : Bool := 'a' ≤ c && c ≤ 'z'

/-- JS `\d`. -/
def isDigitCh (c : Char) : Bool := '0' ≤ c && c ≤ '9'

/-- JS `[A-Z0-9]`. -/
def isAlnumUpper (c : Char) : Bool := isUpperAlpha c || isDigitCh c

/-- JS `[A-F0-9]` (hex-looking characters). -/
def isHexUpper (c : Char) : Bool := isDigitCh c || ('A' ≤ c && c ≤ 'F')

/-- JS `[A-Z0-9.\s]` (the class allowed after an asterisk in rule 4). -/
def isStarTailChar (c : Char) : Bool := isAlnumUpper c || c = '.' || isJsSpace c

/-- JS `\w` (`[A-Za-z0-9_]`), used for `\b` word boundaries. -/
def isWordCh (c : Char) : Bool :=
  isUpperAlpha c || isLowerAlpha c || isDigitCh c || c = '_'

/-! ## JS string primitives -/

/-- `String.prototype.toUpperCase` on the ASCII range. -/
def jsToUpper (cs : List Char) : List Char := cs.map Char.toUpper

/-- `String.prototype.trim` (strips `\s` from both ends, ASCII range). -/
def jsTrim (cs : List Char) : List Char :=
  ((cs.dropWhile isJsSpace).reverse.dropWhile isJsSpace).reverse

/-- The trimmed upper-cased form a JS string is put into before the
normalization rules run. -/
def jsTrimUpper (s : String) : String := String.mk (jsToUpper (jsTrim s.data))

/-- JS `a.startsWith(b)`. -/
def jsStartsWith (hay nd : List Char) : Bool := nd.isPrefixOf hay

/-- JS `a.includes(b)` (substring containment). -/
def jsIncludes : List Char → List Char → Bool
  | hay, nd =>
    if nd.isPrefixOf hay then true
    else
      match hay with
      | [] => false
      | _ :: t => jsIncludes t nd

/-! ## Aggressive normalizer (`aggressiveNormalizeCode`, context-analyzer)

Each `aggStepN` is the embedding of rule `N` of the source's ordered rule
pipeline, i.e. of one `String.replace` call (or the guarded rule 8). -/

/-- Rule 1, `replace(/([A-Z]+)(\d+)(\s)/g, "$1$3")`: drop a digit run that
directly follows a letter run and directly precedes whitespace. -/
def aggStep1Aux : Nat → List Char → List Char
  | 0, cs => cs
  | _ + 1, [] => []
  | n + 1, c :: cs =>
    if isUpperAlpha c then
      let l := (c :: cs).takeWhile isUpperAlpha
      let afterL := (c :: cs).dropWhile isUpperAlpha
      let d := afterL.takeWhile isDigitCh
      let afterD := afterL.dropWhile isDigitCh
      match d, afterD with
      | _ :: _, w :: rest =>
        if isJsSpace w then l ++ w :: aggStep1Aux n rest
        else l ++ d ++ aggStep1Aux n afterD
      | _, _ => l ++ d ++ aggStep1Aux n afterD
    else c :: aggStep1Aux n cs

def aggStep1 (cs : List Char) : List Char := aggStep1Aux cs.length cs

/-- Rule 2, `replace(/\s+\d{1,3}(?=\s)/g, "")`: drop whitespace followed by
an isolated 1–3 digit token that is again followed by whitespace (the
lookahead whitespace is not consumed). -/
def aggStep2Aux : Nat → List Char → List Char
  | 0, cs => cs
  | _ + 1, [] => []
  | n + 1, c :: cs =>
    if isJsSpace c then
      let w := (c :: cs).takeWhile isJsSpace
      let afterW := (c :: cs).dropWhile isJsSpace
      let d := afterW.takeWhile isDigitCh
      let afterD := afterW.dropWhile isDigitCh
      let nextIsSpace := match afterD with
        | x :: _ => isJsSpace x
        | [] => false
      if 1 ≤ d.length && d.length ≤ 3 && nextIsSpace then
        aggStep2Aux n afterD
      else w ++ d ++ aggStep2Aux n afterD
    else c :: aggStep2Aux n cs

def aggStep2 (cs : List Char) : List Char := aggStep2Aux cs.length cs

/-- Rule 3, `replace(/\bCARTOES\b/g, "CARTAO")`. `prevIsWord` tracks whether
the character before the current scan position is a word character (for the
leading `\b`); the trailing `\b` checks the character after the match. -/
def aggStep3Aux : Nat → Bool → List Char → List Char
  | 0, _, cs => cs
  | _ + 1, _, [] => []
  | n + 1, prevIsWord, c :: cs =>
    let target := ['C', 'A', 'R', 'T', 'O', 'E', 'S']
    let rest := (c :: cs).drop 7
    let nextOk := match rest with
      | x :: _ => !isWordCh x
      | [] => true
    if target.isPrefixOf (c :: cs) && !prevIsWord && nextOk then
      ['C', 'A', 'R', 'T', 'A', 'O'] ++ aggStep3Aux n true rest
    else c :: aggStep3Aux n (isWordCh c) cs

def aggStep3 (cs : List Char) : List Char := aggStep3Aux cs.length false cs

/-- Rule 4a, `replace(/\s*\*+\s*[A-Z0-9.\s]*$/g, "")`: if every character
after the last asterisk lies in `[A-Z0-9.\s]`, remove that tail, the final
run of asterisks, and the whitespace immediately before it. -/
def aggStep4a (cs : List Char) : List Char :=
  let r := cs.reverse
  let tail := r.takeWhile (fun c => c ≠ '*')
  let rest := r.dropWhile (fun c => c ≠ '*')
  match rest with
  | [] => cs
  | _ :: _ =>
    if tail.all isStarTailChar then
      (((rest.dropWhile (fun c => c = '*')).dropWhile isJsSpace)).reverse
    else cs

/-- Rule 4b, `replace(/\*[A-Z0-9]+/g, "")`: drop every asterisk that is
directly followed by an alphanumeric run, together with that run. -/
def aggStep4bAux : Nat → List Char → List Char
  | 0, cs => cs
  | _ + 1, [] => []
  | n + 1, c :: cs =>
    if c = '*' then
      let d := cs.takeWhile isAlnumUpper
      let rest := cs.dropWhile isAlnumUpper
      match d with
      | [] => c :: aggStep4bAux n cs
      | _ :: _ => aggStep4bAux n rest
    else c :: aggStep4bAux n cs

def aggStep4b (cs : List Char) : List Char := aggStep4bAux cs.length cs

/-- Rule 5, the global replace of regex `-[A-Z0-9]{1,6}$` by `""`:
drop a trailing hyphen followed by 1–6 alphanumeric characters. -/
def aggStep5 (cs : List Char) : List Char :=
  let r := cs.reverse
  let t := r.takeWhile isAlnumUpper
  let rest := r.dropWhile isAlnumUpper
  match rest with
  | '-' :: rest' => if 1 ≤ t.length && t.length ≤ 6 then rest'.reverse else cs
  | _ => cs

/-- Rule 6, `replace(/\s+(?=.*\d)(?=.*[A-Z])[A-Z0-9]{6,}$/g, "")`: drop a
trailing alphanumeric token of length ≥ 6 containing both a digit and a
letter, together with the whitespace run before it. -/
def aggStep6 (cs : List Char) : List Char :=
  let r := cs.reverse
  let t := r.takeWhile isAlnumUpper
  let rest := r.dropWhile isAlnumUpper
  let precededBySpace := match rest with
    | x :: _ => isJsSpace x
    | [] => false
  if 6 ≤ t.length && t.any isDigitCh && t.any isUpperAlpha && precededBySpace then
    (rest.dropWhile isJsSpace).reverse
  else cs

/-- Rule 7, `replace(/\s+\d{6,}$/g, "")`: drop a trailing numeric run of
length ≥ 6 together with the whitespace run before it. -/
def aggStep7 (cs : List Char) : List Char :=
  let r := cs.reverse
  let t := r.takeWhile isDigitCh
  let rest := r.dropWhile isDigitCh
  let precededBySpace := match rest with
    | x :: _ => isJsSpace x
    | [] => false
  if 6 ≤ t.length && precededBySpace then (rest.dropWhile isJsSpace).reverse
  else cs

/-- Rule 8: if `/\s+\d{1,5}$/` matches, strip the suffix only when the
remaining base has length > 2 (the source's minimum-length guard). -/
def aggStep8 (cs : List Char) : List Char :=
  let r := cs.reverse
  let t := r.takeWhile isDigitCh
  let rest := r.dropWhile isDigitCh
  let precededBySpace := match rest with
    | x :: _ => isJsSpace x
    | [] => false
  if 1 ≤ t.length && t.length ≤ 5 && precededBySpace then
    let without := (rest.dropWhile isJsSpace).reverse
    if without.length > 2 then without else cs
  else cs

/-- Rule 9, `replace(/\d+$/g, "")`: drop any trailing digit run. -/
def aggStep9 (cs : List Char) : List Char :=
  (cs.reverse.dropWhile isDigitCh).reverse

/-- Rule 10, `replace(/\s+[A-F0-9]{8,}$/g, "")`: drop a trailing
hex-looking run of length ≥ 8 together with the whitespace before it. -/
def aggStep10 (cs : List Char) : List Char :=
  let r := cs.reverse
  let t := r.takeWhile isHexUpper
  let rest := r.dropWhile isHexUpper
  let precededBySpace := match rest with
    | x :: _ => isJsSpace x
    | [] => false
  if 8 ≤ t.length && precededBySpace then (rest.dropWhile isJsSpace).reverse
  else cs

/-- The source's `LOCATION_QUALIFIERS` list, in its order. -/
def LOCATION_QUALIFIERS : List String :=
  ["DIGITAL", "ONLINE", "ITAIM", "IBIRAPUERA", "CENTRO",
   "SHOPPING", "MORUMBI", "PAULISTA", "VILA", "JARDIM",
   "AEROPORTO", "INTERNACIONAL", "BRASIL", "BRAZIL", "BR"]

/-- One iteration of rule 11, `replace(new RegExp("\\s+WORD$", "gi"), "")`:
drop the word when it ends the string preceded by a whitespace run. -/
def stripTrailingWord (w : List Char) (cs : List Char) : List Char :=
  let r := cs.reverse
  if (r.take w.length).map Char.toUpper = w.reverse then
    let rest := r.drop w.length
    match rest with
    | x :: _ =>
      if isJsSpace x then (rest.dropWhile isJsSpace).reverse else cs
    | [] => cs
  else cs

/-- Rule 11: fold the location/qualifier words over the string in the
source's list order. -/
def aggStep11 (cs : List Char) : List Char :=
  LOCATION_QUALIFIERS.foldl (fun acc w => stripTrailingWord w.data acc) cs

/-- JS `split(" ")` on a character list (empty segments preserved). -/
def splitOnSpace (cs : List Char) : List (List Char) := cs.splitOn ' '

/-- The `filter` of rule 12: keep a word iff it differs from the word at the
previous index of the original array. -/
def filterConsecDupAux (prev : List Char) : List (List Char) → List (List Char)
  | [] => []
  | w :: ws =>
    if w = prev then filterConsecDupAux w ws else w :: filterConsecDupAux w ws

/-- Rule 12: split on single spaces, drop words equal to their predecessor,
join with single spaces. -/
def aggStep12 (cs : List Char) : List Char :=
  match splitOnSpace cs with
  | [] => []
  | w :: ws => (List.intercalate [' '] (w :: filterConsecDupAux w ws))

/-- Rule 13, `replace(/\s+/g, " ")`: collapse every whitespace run into a
single space. -/
def aggStep13Aux : Nat → List Char → List Char
  | 0, cs => cs
  | _ + 1, [] => []
  | n + 1, c :: cs =>
    if isJsSpace c then ' ' :: aggStep13Aux n ((c :: cs).dropWhile isJsSpace)
    else c :: aggStep13Aux n cs

def aggStep13 (cs : List Char) : List Char := aggStep13Aux cs.length cs

/-- `aggressiveNormalizeCode` from the context analyzer: trim + uppercase,
then rules 1–13 in order, then a final trim (rule 14). -/
def aggressiveNormalizeCode (raw : String) : String :=
  let cs := jsToUpper (jsTrim raw.data)
  let cs := aggStep1 cs
  let cs := aggStep2 cs
  let cs := aggStep3 cs
  let cs := aggStep4a cs
  let cs := aggStep4b cs
  let cs := aggStep5 cs
  let cs := aggStep6 cs
  let cs := aggStep7 cs
  let cs := aggStep8 cs
  let cs := aggStep9 cs
  let cs := aggStep10 cs
  let cs := aggStep11 cs
  let cs := aggStep12 cs
  let cs := aggStep13 cs
  String.mk (jsTrim cs)

/-- `normalizeCode` (the conservative normalizer): trim + uppercase, strip a
trailing numeric run of ≥ 6 digits, then strip a short trailing numeric run
(1–5 digits) only when the base keeps length > 2. -/
def normalizeCode (raw : String) : String :=
  let cs := jsToUpper (jsTrim raw.data)
  let cs := aggStep7 cs
  let cs := aggStep8 cs
  String.mk cs

/-! ## Transactions and code-structure analysis (context-analyzer) -/

/-- A bank/credit-card transaction (the fields consumed by the discovery
core).  `date` is a token standing for the JS `Date` object: equal tokens
model the same `Date` object (JS `Set.has` compares object identity). -/
structure Transaction where
  id : String
  date : Nat
  description : String
  amount : ℚ
  type : String
deriving Repr, DecidableEq

/-- The source's `PAYMENT_KEYWORDS` list, in order. -/
def PAYMENT_KEYWORDS : List String :=
  ["PAG", "PAGTO", "TED", "DOC", "PIX", "TRANSF",
   "CARTAO", "CARD", "DEBITO", "CREDITO",
   "REC", "RECARGA", "SAQUE", "DEP", "DEPOSITO"]

/-- JS `[...new Set(l)]`: deduplicate keeping first occurrences in order. -/
def jsSetDedupAux [DecidableEq α] (seen : List α) : List α → List α
  | [] => []
  | x :: xs =>
    if x ∈ seen then jsSetDedupAux seen xs
    else x :: jsSetDedupAux (x :: seen) xs

def jsSetDedup [DecidableEq α] (l : List α) : List α := jsSetDedupAux [] l

/-- JS `/\d+$/.test(v)`: the string ends in a digit. -/
def endsInDigit (s : String) : Bool :=
  match s.data.reverse with
  | c :: _ => isDigitCh c
  | [] => false

/-- JS `[a-zA-Z]`. -/
def isAsciiAlpha (c : Char) : Bool := isUpperAlpha c || isLowerAlpha c

/-- Structural analysis of a transaction code (`CodeStructure`).  The
`composition` sub-object of the source is flattened into the
`letters`/`digits`/`spaces`/`special_chars` fields.  `detected_pfx` embeds
the source's `detected_prefix` field (renamed). -/
structure CodeStructure where
  raw : String
  length : Nat
  has_asterisk : Bool
  has_variable_numeric_suffix : Bool
  is_all_caps : Bool
  payment_keywords : List String
  letters : Nat
  digits : Nat
  spaces : Nat
  special_chars : List Char
  detected_pfx : Option String
  detected_suffix_pattern : Option String
deriving Repr, DecidableEq

/-- `analyzeCodeStructure(raw, allVariations)` from the context analyzer. -/
def analyzeCodeStructure (raw : String) (allVariations : List String) :
    CodeStructure :=
  let normalized := normalizeCode raw
  let hasVariableNumericSuffix :=
    allVariations.length > 1 && allVariations.all endsInDigit
  let l := raw.data.takeWhile isAlnumUpper
  let afterL := (raw.data.dropWhile isAlnumUpper).dropWhile isJsSpace
  let detected : Option String :=
    match l, afterL with
    | _ :: _, '*' :: _ => some (String.mk l ++ " *")
    | _, _ => none
  { raw := normalized
    length := normalized.data.length
    has_asterisk := raw.data.contains '*'
    has_variable_numeric_suffix := hasVariableNumericSuffix
    is_all_caps := raw.data == jsToUpper raw.data
    payment_keywords :=
      PAYMENT_KEYWORDS.filter (fun k => jsIncludes (jsToUpper raw.data) k.data)
    letters := (raw.data.filter isAsciiAlpha).length
    digits := (raw.data.filter isDigitCh).length
    spaces := (raw.data.filter isJsSpace).length
    special_chars :=
      jsSetDedup (raw.data.filter
        (fun c => !(isAsciiAlpha c || isDigitCh c || isJsSpace c)))
    detected_pfx := detected
    detected_suffix_pattern :=
      if hasVariableNumericSuffix then some "VARIABLE_NUMERIC" else none }

/-! ## Context extraction (context-analyzer)

`amount_stats`, `temporal_pattern` and `date_range` are omitted from the
embedding: they involve floating-point square roots and `Date` arithmetic,
and no claim under verification refers to them. -/

/-- One step of the JS `Map`-based counting: increment the count of `code`
in the insertion-ordered association list (append a fresh entry at the end
when absent). -/
def bumpCount : List (String × Nat) → String → List (String × Nat)
  | [], code => [(code, 1)]
  | (k, n) :: rest, code =>
    if k = code then (k, n + 1) :: rest else (k, n) :: bumpCount rest code

/-- Insert an entry into a list sorted by descending count, after all
entries with a count ≥ its own (this reproduces the result of JS's stable
`sort((a, b) => b[1] - a[1])`). -/
def insertCountDesc (p : String × Nat) : List (String × Nat) → List (String × Nat)
  | [] => [p]
  | q :: qs => if p.2 > q.2 then p :: q :: qs else q :: insertCountDesc p qs

/-- Stable sort by descending count (insertion sort over the original
order). -/
def sortCountsDesc (l : List (String × Nat)) : List (String × Nat) :=
  l.foldl (fun acc p => insertCountDesc p acc) []

/-- The co-occurrence filter of `extractContext`: the transactions of the
whole set whose `normalizeCode` differs from the context's code and whose
date (object token) occurs among the group's dates. -/
def cooccurFilter (code : String) (transactions allTransactions : List Transaction) :
    List Transaction :=
  allTransactions.filter
    (fun t => decide (normalizeCode t.description ≠ code) &&
      decide (t.date ∈ transactions.map (fun u => u.date)))

/-- The co-occurrence counting of `extractContext`: each filtered
transaction is counted under its `normalizeCode`. -/
def coOccurrenceCounts (code : String) (transactions allTransactions : List Transaction) :
    List (String × Nat) :=
  (cooccurFilter code transactions allTransactions).foldl
    (fun acc t => bumpCount acc (normalizeCode t.description)) []

/-- Complete context for a merchant code (`TransactionContext`), restricted
to the fields the claims refer to. -/
structure TransactionContext where
  code : String
  raw_variations : List String
  occurrence_count : Nat
  total_amount : ℚ
  code_structure : CodeStructure
  transaction_types : List String
  co_occurring_codes : List String
  sample_transaction_ids : List String
deriving Repr, DecidableEq

/-- `extractContext(code, transactions, allTransactions)` from the context
analyzer. -/
def extractContext (code : String) (transactions allTransactions : List Transaction) :
    TransactionContext :=
  let rawVariations := jsSetDedup (transactions.map (fun t => t.description))
  let coOccurringCodes :=
    ((sortCountsDesc (coOccurrenceCounts code transactions allTransactions)).take 10).map
      Prod.fst
  { code := code
    raw_variations := rawVariations
    occurrence_count := transactions.length
    total_amount := (transactions.map (fun t => t.amount)).foldl (· + ·) 0
    code_structure := analyzeCodeStructure (rawVariations.headD "") rawVariations
    transaction_types :=
      jsSetDedup (transactions.map (fun t => if t.type = "" then "unknown" else t.type))
    co_occurring_codes := coOccurringCodes
    sample_transaction_ids := (transactions.take 5).map (fun t => t.id) }

/-- One step of the JS `Map`-based grouping by code: append the transaction
to its group, creating the group at the end when absent. -/
def pushGroup : List (String × List Transaction) → String → Transaction →
    List (String × List Transaction)
  | [], code, t => [(code, [t])]
  | (k, ts) :: rest, code, t =>
    if k = code then (k, ts ++ [t]) :: rest
    else (k, ts) :: pushGroup rest code t

/-- The grouping pass of `analyzeAllTransactions`: group by
`aggressiveNormalizeCode`, preserving insertion order. -/
def groupByAggressiveCode (transactions : List Transaction) :
    List (String × List Transaction) :=
  transactions.foldl
    (fun acc t => pushGroup acc (aggressiveNormalizeCode t.description) t) []

/-- `analyzeAllTransactions(transactions)`: the batch entry point, a map
from canonical code to extracted context (insertion-ordered association
list). -/
def analyzeAllTransactions (transactions : List Transaction) :
    List (String × TransactionContext) :=
  (groupByAggressiveCode transactions).map
    (fun p => (p.1, extractContext p.1 p.2 transactions))

/-- `calculateImpactScore(context, aiConfidence)` from the context
analyzer: `(total_amount * occurrence_count) * (1 / confidence)` when the
confidence is positive, else a fixed penalty factor of 10. -/
def calculateImpactScore (context : TransactionContext) (aiConfidence : ℚ) : ℚ :=
  let baseImpact := context.total_amount * (context.occurrence_count : ℚ)
  let confidencePenalty := if 0 < aiConfidence then 1 / aiConfidence else 10
  baseImpact * confidencePenalty

/-! ## Claims about the aggressive normalizer (C1, C4, C5) -/

/-- C1 (counterexample).  The aggressive normalizer is NOT idempotent for
every input string: on `"X DIGITAL ONLINE"` the first pass strips only the
final qualifier `ONLINE` (the qualifier list is folded in a fixed order in
which `DIGITAL` is processed before `ONLINE`, so the newly exposed trailing
`DIGITAL` is not stripped), and the second pass strips `DIGITAL` as well,
giving a different result. -/
theorem C1_counterexample :
    aggressiveNormalizeCode (aggressiveNormalizeCode "X DIGITAL ONLINE") ≠
      aggressiveNormalizeCode "X DIGITAL ONLINE" := by decide

/-- C1 (amended).  The aggressive normalizer is idempotent on all strings
the specification actually tests (the grouping, truncation, preservation
and end-to-end example strings), though not on every input string. -/
theorem C1_idempotent_on_tested_strings :
    aggressiveNormalizeCode (aggressiveNormalizeCode "ZUL 1 CARTAO") =
      aggressiveNormalizeCode "ZUL 1 CARTAO" ∧
    aggressiveNormalizeCode (aggressiveNormalizeCode "ZUL 2 CARTAO") =
      aggressiveNormalizeCode "ZUL 2 CARTAO" ∧
    aggressiveNormalizeCode (aggressiveNormalizeCode "ZUL 3 CARTAO") =
      aggressiveNormalizeCode "ZUL 3 CARTAO" ∧
    aggressiveNormalizeCode (aggressiveNormalizeCode "IFOOD *RESTABCD") =
      aggressiveNormalizeCode "IFOOD *RESTABCD" ∧
    aggressiveNormalizeCode (aggressiveNormalizeCode "IFOOD *RESTXYZ") =
      aggressiveNormalizeCode "IFOOD *RESTXYZ" ∧
    aggressiveNormalizeCode (aggressiveNormalizeCode "NETFLIX") =
      aggressiveNormalizeCode "NETFLIX" ∧
    aggressiveNormalizeCode (aggressiveNormalizeCode "UBER TRIP") =
      aggressiveNormalizeCode "UBER TRIP" ∧
    aggressiveNormalizeCode (aggressiveNormalizeCode "OPENAI") =
      aggressiveNormalizeCode "OPENAI" ∧
    aggressiveNormalizeCode (aggressiveNormalizeCode "99 FOOD") =
      aggressiveNormalizeCode "99 FOOD" ∧
    aggressiveNormalizeCode (aggressiveNormalizeCode "UBER *TRIP 111111") =
      aggressiveNormalizeCode "UBER *TRIP 111111" ∧
    aggressiveNormalizeCode (aggressiveNormalizeCode "UBER *TRIP 222222") =
      aggressiveNormalizeCode "UBER *TRIP 222222" ∧
    aggressiveNormalizeCode (aggressiveNormalizeCode "UBER *TRIP 333333") =
      aggressiveNormalizeCode "UBER *TRIP 333333" := by decide

/-- C4 (counterexample).  `aggressiveNormalizeCode` CAN return the empty
string on an input whose trimmed uppercase form is non-empty: the
trailing-digit rule 9 has no minimum-length guard, so the all-digit input
`"12345"` is reduced to `""`. -/
theorem C4_counterexample :
    jsTrimUpper "12345" ≠ "" ∧ aggressiveNormalizeCode "12345" = "" := by decide

/-- C4 (amended).  Only the short-numeric-suffix rule (step 8) carries a
minimum-length guard: it either leaves the string unchanged or returns a
result of length > 2.  The other stripping rules are unguarded, and an
all-digit input such as `"12345"` normalizes to the empty string. -/
theorem C4_step8_guard :
    (∀ cs : List Char, aggStep8 cs = cs ∨ 2 < (aggStep8 cs).length) ∧
      aggressiveNormalizeCode "12345" = "" := by
  refine ⟨fun cs => ?_, by decide⟩
  unfold aggStep8
  dsimp only
  split
  · split
    · next h => exact Or.inr h
    · exact Or.inl rfl
  · exact Or.inl rfl

/-- C5.  The aggressive normalizer maps the specification's grouping,
truncation and preservation examples exactly as stated: all three
`ZUL n CARTAO` variants to `"ZUL CARTAO"`, both `IFOOD *...` variants to
`"IFOOD"`, and `"NETFLIX"`, `"UBER TRIP"`, `"OPENAI"`, `"99 FOOD"` to
themselves. -/
theorem C5_concrete_normalizations :
    aggressiveNormalizeCode "ZUL 1 CARTAO" = "ZUL CARTAO" ∧
    aggressiveNormalizeCode "ZUL 2 CARTAO" = "ZUL CARTAO" ∧
    aggressiveNormalizeCode "ZUL 3 CARTAO" = "ZUL CARTAO" ∧
    aggressiveNormalizeCode "IFOOD *RESTABCD" = "IFOOD" ∧
    aggressiveNormalizeCode "IFOOD *RESTXYZ" = "IFOOD" ∧
    aggressiveNormalizeCode "NETFLIX" = "NETFLIX" ∧
    aggressiveNormalizeCode "UBER TRIP" = "UBER TRIP" ∧
    aggressiveNormalizeCode "OPENAI" = "OPENAI" ∧
    aggressiveNormalizeCode "99 FOOD" = "99 FOOD" := by decide

/-! ## Claim C3: impact-score monotonicity -/

/-- The three transactions of the specification's end-to-end scenario
(`UBER *TRIP nnnnnn`, amounts −20, −25, −22). -/
def uberT1 : Transaction := ⟨"u1", 10, "UBER *TRIP 111111", -20, "debit"⟩

def uberT2 : Transaction := ⟨"u2", 11, "UBER *TRIP 222222", -25, "debit"⟩

def uberT3 : Transaction := ⟨"u3", 12, "UBER *TRIP 333333", -22, "debit"⟩

/-- The context extracted for the end-to-end scenario
(`occurrence_count = 3`, `total_amount = −67`, code `"UBER"`). -/
def uberContext : TransactionContext :=
  extractContext "UBER" [uberT1, uberT2, uberT3] [uberT1, uberT2, uberT3]

/-- A single positive-amount transaction, used to instantiate the
nonnegative-amount monotonicity statement. -/
def pixT1 : Transaction := ⟨"p1", 20, "PIX TRANSF JOAO", 50, "pix"⟩

/-- Context of the positive-amount transaction. -/
def pixContext : TransactionContext := extractContext "PIX TRANSF JOAO" [pixT1] [pixT1]

/-- C3 (counterexample).  Impact-score monotonicity fails on the code:
`total_amount` is signed (expenses are negative, as in the spec's own
end-to-end scenario with `total_amount = −67`), so for the scenario's
context the score INCREASES as confidence increases from 0.5 to 1.0,
contradicting the claimed strict decrease, and hence decreasing the
confidence from 1.0 to 0.5 decreases the score. -/
theorem C3_counterexample :
    (1 : ℚ) / 2 < 1 ∧
      calculateImpactScore uberContext (1 / 2) < calculateImpactScore uberContext 1 := by
  decide

/-- C3 (amended).  For contexts with nonnegative `total_amount` and
confidences in `(0, 1]`, the impact score is monotonic as claimed:
lowering the confidence does not decrease the score, and raising the
amount or the occurrence count does not decrease the score; when
`total_amount` and `occurrence_count` are strictly positive the score
strictly decreases as the confidence increases within `[0.1, 1]`. -/
theorem C3_impact_monotonic (c : TransactionContext) (a : ℚ) (n : ℕ) (x y : ℚ)
    (h0 : 0 ≤ c.total_amount) (ha : c.total_amount ≤ a) (hn : c.occurrence_count ≤ n)
    (hx : 0 < x) (hxy : x ≤ y) (_hy : y ≤ 1) :
    calculateImpactScore c y ≤ calculateImpactScore c x ∧
    calculateImpactScore c x ≤ calculateImpactScore { c with total_amount := a } x ∧
    calculateImpactScore c x ≤ calculateImpactScore { c with occurrence_count := n } x ∧
    (0 < c.total_amount → 0 < c.occurrence_count → 1 / 10 ≤ x → x < y →
      calculateImpactScore c y < calculateImpactScore c x) := by
  have hy' : 0 < y := lt_of_lt_of_le hx hxy
  have hB : 0 ≤ c.total_amount * (c.occurrence_count : ℚ) :=
    mul_nonneg h0 (Nat.cast_nonneg _)
  have hpx : 0 < 1 / x := by
    exact one_div_pos.mpr hx
  refine ⟨?_, ?_, ?_, ?_⟩
  · simp only [calculateImpactScore, if_pos hx, if_pos hy']
    exact mul_le_mul_of_nonneg_left (one_div_le_one_div_of_le hx hxy) hB
  · simp only [calculateImpactScore, if_pos hx]
    exact mul_le_mul_of_nonneg_right
      (mul_le_mul_of_nonneg_right ha (Nat.cast_nonneg _)) (le_of_lt hpx)
  · simp only [calculateImpactScore, if_pos hx]
    exact mul_le_mul_of_nonneg_right
      (mul_le_mul_of_nonneg_left (by exact_mod_cast hn) h0) (le_of_lt hpx)
  · intro hA hcnt _ hlt
    simp only [calculateImpactScore, if_pos hx, if_pos hy']
    have hBpos : 0 < c.total_amount * (c.occurrence_count : ℚ) :=
      mul_pos hA (by exact_mod_cast hcnt)
    exact mul_lt_mul_of_pos_left (one_div_lt_one_div_of_lt hx hlt) hBpos

/-- Witness for `C3_impact_monotonic` at the concrete positive-amount
context, with amount bound 100, count bound 2 and confidences 0.5 ≤ 1. -/
theorem C3_impact_monotonic_witness :
    ((0 : ℚ) ≤ pixContext.total_amount ∧ pixContext.total_amount ≤ 100 ∧
      pixContext.occurrence_count ≤ 2 ∧ (0 : ℚ) < 1 / 2 ∧
      (1 : ℚ) / 2 ≤ 1 ∧ (1 : ℚ) ≤ 1) ∧
    (calculateImpactScore pixContext 1 ≤ calculateImpactScore pixContext (1 / 2) ∧
     calculateImpactScore pixContext (1 / 2) ≤
       calculateImpactScore { pixContext with total_amount := 100 } (1 / 2) ∧
     calculateImpactScore pixContext (1 / 2) ≤
       calculateImpactScore { pixContext with occurrence_count := 2 } (1 / 2) ∧
     (0 < pixContext.total_amount → 0 < pixContext.occurrence_count →
       (1 : ℚ) / 10 ≤ 1 / 2 → (1 : ℚ) / 2 < 1 →
       calculateImpactScore pixContext 1 < calculateImpactScore pixContext (1 / 2))) :=
  ⟨⟨by decide, by decide, by decide, by decide, by decide, by decide⟩,
    C3_impact_monotonic pixContext 100 2 (1 / 2) 1
      (by decide) (by decide) (by decide) (by decide) (by decide) (by decide)⟩

/-! ## Claim C10: code-structure fields -/

/-- C10.  In every extracted context, all `code_structure` fields except
`has_variable_numeric_suffix` (and the suffix-pattern tag derived from it)
are computed from the `raw` argument only — the first distinct raw
variation passed by `extractContext` — independently of the variation
list; and `has_variable_numeric_suffix` holds exactly when there are at
least two distinct variations and every variation ends in a digit. -/
theorem C10_code_structure_from_first_variation (raw code : String)
    (vars vars' : List String) (txns all : List Transaction) :
    ((analyzeCodeStructure raw vars).raw = (analyzeCodeStructure raw vars').raw ∧
     (analyzeCodeStructure raw vars).has_asterisk =
       (analyzeCodeStructure raw vars').has_asterisk ∧
     (analyzeCodeStructure raw vars).is_all_caps =
       (analyzeCodeStructure raw vars').is_all_caps ∧
     (analyzeCodeStructure raw vars).payment_keywords =
       (analyzeCodeStructure raw vars').payment_keywords ∧
     (analyzeCodeStructure raw vars).letters = (analyzeCodeStructure raw vars').letters ∧
     (analyzeCodeStructure raw vars).digits = (analyzeCodeStructure raw vars').digits ∧
     (analyzeCodeStructure raw vars).spaces = (analyzeCodeStructure raw vars').spaces ∧
     (analyzeCodeStructure raw vars).special_chars =
       (analyzeCodeStructure raw vars').special_chars ∧
     (analyzeCodeStructure raw vars).detected_pfx =
       (analyzeCodeStructure raw vars').detected_pfx) ∧
    ((analyzeCodeStructure raw vars).has_variable_numeric_suffix = true ↔
      1 < vars.length ∧ ∀ v ∈ vars, endsInDigit v = true) ∧
    (extractContext code txns all).code_structure =
      analyzeCodeStructure
        ((jsSetDedup (txns.map (fun t => t.description))).headD "")
        (jsSetDedup (txns.map (fun t => t.description))) := by
  refine ⟨⟨rfl, rfl, rfl, rfl, rfl, rfl, rfl, rfl, rfl⟩, ?_, rfl⟩
  simp [analyzeCodeStructure, List.all_eq_true]

/-! ## Claim C9: co-occurring codes -/

/-- Membership in the insertion step of the count sort. -/
theorem mem_insertCountDesc (x p : String × Nat) (l : List (String × Nat)) :
    x ∈ insertCountDesc p l ↔ x = p ∨ x ∈ l := by
  induction l with
  | nil => simp [insertCountDesc]
  | cons q qs ih =>
    simp only [insertCountDesc]
    split
    · simp [List.mem_cons]
    · simp only [List.mem_cons, ih]
      tauto

/-- The insertion step preserves sortedness by descending count. -/
theorem pairwise_insertCountDesc (p : String × Nat) (l : List (String × Nat))
    (h : l.Pairwise (fun a b => b.2 ≤ a.2)) :
    (insertCountDesc p l).Pairwise (fun a b => b.2 ≤ a.2) := by
  induction l with
  | nil => simp [insertCountDesc]
  | cons q qs ih =>
    rcases List.pairwise_cons.mp h with ⟨hq, hqs⟩
    simp only [insertCountDesc]
    split
    · next hgt =>
      refine List.pairwise_cons.mpr ⟨?_, h⟩
      intro x hx
      rcases List.mem_cons.mp hx with rfl | hx'
      · exact le_of_lt hgt
      · exact le_trans (hq x hx') (le_of_lt hgt)
    · next hle =>
      refine List.pairwise_cons.mpr ⟨?_, ih hqs⟩
      intro x hx
      rcases (mem_insertCountDesc x p qs).mp hx with rfl | hx'
      · exact Nat.le_of_not_lt hle
      · exact hq x hx'

/-- The accumulated insertion sort stays sorted by descending count. -/
theorem pairwise_foldl_insertCountDesc (l acc : List (String × Nat))
    (h : acc.Pairwise (fun a b => b.2 ≤ a.2)) :
    (l.foldl (fun a p => insertCountDesc p a) acc).Pairwise (fun a b => b.2 ≤ a.2) := by
  induction l generalizing acc with
  | nil => exact h
  | cons p ps ih => exact ih _ (pairwise_insertCountDesc p acc h)

/-- `sortCountsDesc` produces a list sorted by descending count. -/
theorem sortCountsDesc_pairwise (l : List (String × Nat)) :
    (sortCountsDesc l).Pairwise (fun a b => b.2 ≤ a.2) :=
  pairwise_foldl_insertCountDesc l [] (by simp)

/-- Membership after the accumulated insertion sort. -/
theorem mem_foldl_insertCountDesc (x : String × Nat) (l acc : List (String × Nat)) :
    x ∈ l.foldl (fun a p => insertCountDesc p a) acc ↔ x ∈ acc ∨ x ∈ l := by
  induction l generalizing acc with
  | nil => simp
  | cons p ps ih =>
    simp only [List.foldl_cons, ih, mem_insertCountDesc, List.mem_cons]
    tauto

/-- `sortCountsDesc` is membership-preserving. -/
theorem mem_sortCountsDesc (x : String × Nat) (l : List (String × Nat)) :
    x ∈ sortCountsDesc l ↔ x ∈ l := by
  simpa using mem_foldl_insertCountDesc x l []

/-- Every key present after a `bumpCount` step was already a key or is the
bumped code. -/
theorem bumpCount_key (c : String) :
    ∀ (acc : List (String × Nat)), ∀ p ∈ bumpCount acc c,
      p.1 = c ∨ ∃ q ∈ acc, p.1 = q.1 := by
  intro acc
  induction acc with
  | nil =>
    intro p hp
    simp only [bumpCount, List.mem_singleton] at hp
    exact Or.inl (by simp [hp])
  | cons q qs ih =>
    obtain ⟨k, n⟩ := q
    intro p hp
    simp only [bumpCount] at hp
    by_cases heq : k = c
    · rw [if_pos heq] at hp
      rcases List.mem_cons.mp hp with h | hmem
      · exact Or.inl (by rw [h]; exact heq)
      · exact Or.inr ⟨p, List.mem_cons_of_mem _ hmem, rfl⟩
    · rw [if_neg heq] at hp
      rcases List.mem_cons.mp hp with h | hmem
      · exact Or.inr ⟨(k, n), List.mem_cons_self _ _, by rw [h]⟩
      · rcases ih p hmem with h | ⟨q', hq', h⟩
        · exact Or.inl h
        · exact Or.inr ⟨q', List.mem_cons_of_mem _ hq', h⟩

/-- Keys accumulated by folding `bumpCount` over a transaction list all
come from the accumulator or from the folded transactions. -/
theorem bumpCount_foldl_key (f : Transaction → String) (P : String → Prop)
    (ts : List Transaction) (hts : ∀ t ∈ ts, P (f t)) (acc : List (String × Nat))
    (hacc : ∀ q ∈ acc, P q.1) :
    ∀ p ∈ ts.foldl (fun a t => bumpCount a (f t)) acc, P p.1 := by
  induction ts generalizing acc with
  | nil => exact hacc
  | cons t ts ih =>
    intro p hp
    refine ih (fun u hu => hts u (List.mem_cons_of_mem _ hu)) (bumpCount acc (f t)) ?_ p hp
    intro q hq
    rcases bumpCount_key (f t) acc q hq with h | ⟨q', hq', h⟩
    · exact h ▸ hts t (List.mem_cons_self _ _)
    · exact h ▸ hacc q' hq'

/-- Every key of `coOccurrenceCounts` is the conservative code of a
transaction of the whole set that differs from the context's code and
shares a date (token) with the group. -/
theorem coOccurrenceCounts_key (code : String) (txns all : List Transaction)
    (p : String × Nat) (hp : p ∈ coOccurrenceCounts code txns all) :
    p.1 ≠ code ∧ ∃ t ∈ all, normalizeCode t.description = p.1 ∧
      t.date ∈ txns.map (fun u => u.date) := by
  have hts : ∀ t ∈ cooccurFilter code txns all,
      (fun c => c ≠ code ∧ ∃ u ∈ all, normalizeCode u.description = c ∧
        u.date ∈ txns.map (fun v => v.date)) (normalizeCode t.description) := by
    intro t ht
    rcases List.mem_filter.mp ht with ⟨htall, hcond⟩
    simp only [Bool.and_eq_true, decide_eq_true_eq] at hcond
    exact ⟨hcond.1, t, htall, rfl, hcond.2⟩
  exact bumpCount_foldl_key (fun t => normalizeCode t.description)
    (fun c => c ≠ code ∧ ∃ u ∈ all, normalizeCode u.description = c ∧
      u.date ∈ txns.map (fun v => v.date))
    (cooccurFilter code txns all) hts [] (by simp) p hp

/-- C9 (amended).  `co_occurring_codes` lists at most 10 codes, ranked by
descending shared-date count over the whole transaction set; every listed
code differs from the context's own code but is the CONSERVATIVE
normalization (`normalizeCode`) of some transaction sharing a date with
the group — not an aggressive grouping key, and possibly a variant of the
context's own transactions. -/
theorem C9_co_occurring_codes (code : String) (txns all : List Transaction) :
    (extractContext code txns all).co_occurring_codes.length ≤ 10 ∧
    (sortCountsDesc (coOccurrenceCounts code txns all)).Pairwise
      (fun a b => b.2 ≤ a.2) ∧
    ∀ c ∈ (extractContext code txns all).co_occurring_codes,
      c ≠ code ∧ ∃ t ∈ all, normalizeCode t.description = c ∧
        t.date ∈ txns.map (fun u => u.date) := by
  refine ⟨?_, sortCountsDesc_pairwise _, ?_⟩
  · simp [extractContext]
  · intro c hc
    simp only [extractContext, List.mem_map] at hc
    rcases hc with ⟨p, hp, rfl⟩
    have hp' : p ∈ sortCountsDesc (coOccurrenceCounts code txns all) :=
      List.take_subset _ _ hp
    exact coOccurrenceCounts_key code txns all p
      ((mem_sortCountsDesc p _).mp hp')

/-- The two same-group transactions used to refute C9 as stated. -/
def zulT1 : Transaction := ⟨"z1", 0, "ZUL 1 CARTAO", -10, "debit"⟩

/-- Second transaction of the C9 refutation scenario. -/
def zulT2 : Transaction := ⟨"z2", 1, "ZUL 2 CARTAO", -12, "debit"⟩

/-- C9 (counterexample).  Running the batch analysis on two transactions
`"ZUL 1 CARTAO"`, `"ZUL 2 CARTAO"` produces a single group whose only
aggressive grouping key is `"ZUL CARTAO"`, yet its `co_occurring_codes`
is `["ZUL 1 CARTAO", "ZUL 2 CARTAO"]`: conservative codes of the group's
OWN transactions, neither of which is an aggressive grouping key — the
co-occurrence pass normalizes with `normalizeCode` and compares against
the aggressive key. -/
theorem C9_counterexample :
    (analyzeAllTransactions [zulT1, zulT2]).map Prod.fst = ["ZUL CARTAO"] ∧
    (analyzeAllTransactions [zulT1, zulT2]).map (fun p => p.2.co_occurring_codes) =
      [["ZUL 1 CARTAO", "ZUL 2 CARTAO"]] ∧
    "ZUL 1 CARTAO" ∉ (analyzeAllTransactions [zulT1, zulT2]).map Prod.fst := by
  decide

/-- Witness for `C9_co_occurring_codes` at the concrete ZUL scenario:
every listed co-occurring code differs from the group key and is the
conservative code of a date-sharing transaction. -/
theorem C9_co_occurring_codes_witness :
    (extractContext "ZUL CARTAO" [zulT1, zulT2] [zulT1, zulT2]).co_occurring_codes.length ≤ 10 ∧
    ("ZUL 1 CARTAO" ∈
        (extractContext "ZUL CARTAO" [zulT1, zulT2] [zulT1, zulT2]).co_occurring_codes →
      "ZUL 1 CARTAO" ≠ "ZUL CARTAO" ∧ ∃ t ∈ [zulT1, zulT2],
        normalizeCode t.description = "ZUL 1 CARTAO" ∧
        t.date ∈ [zulT1, zulT2].map (fun u => u.date)) :=
  ⟨(C9_co_occurring_codes "ZUL CARTAO" [zulT1, zulT2] [zulT1, zulT2]).1,
    fun hmem =>
      (C9_co_occurring_codes "ZUL CARTAO" [zulT1, zulT2] [zulT1, zulT2]).2.2
        "ZUL 1 CARTAO" hmem⟩

/-! ## Learning lookup (`findRelevantLearning`, merchant-inference) -/

/-- A learning signal from a previous user validation (`LearningSig`). -/
structure LearningSig where
  original_code : String
  context_summary : String
  ai_inference : String
  user_correction : Option String
  was_correct : Bool
deriving Repr, DecidableEq

/-- JS `replace(/\d+/g, "X")`: every digit run becomes a single `X`. -/
def replaceDigitRunsAux : Nat → List Char → List Char
  | 0, cs => cs
  | _ + 1, [] => []
  | n + 1, c :: cs =>
    if isDigitCh c then 'X' :: replaceDigitRunsAux n (cs.dropWhile isDigitCh)
    else c :: replaceDigitRunsAux n cs

def replaceDigitRuns (cs : List Char) : List Char := replaceDigitRunsAux cs.length cs

/-- JS `replace(/[A-Z0-9]{6,}/g, "XXX")`: every alphanumeric run of length
at least 6 becomes `XXX`; shorter runs are kept. -/
def replaceLongAlnumRunsAux : Nat → List Char → List Char
  | 0, cs => cs
  | _ + 1, [] => []
  | n + 1, c :: cs =>
    if isAlnumUpper c then
      let run := (c :: cs).takeWhile isAlnumUpper
      let rest := (c :: cs).dropWhile isAlnumUpper
      if 6 ≤ run.length then 'X' :: 'X' :: 'X' :: replaceLongAlnumRunsAux n rest
      else run ++ replaceLongAlnumRunsAux n rest
    else c :: replaceLongAlnumRunsAux n cs

def replaceLongAlnumRuns (cs : List Char) : List Char :=
  replaceLongAlnumRunsAux cs.length cs

/-- The structural pattern of a code: digit runs, then long alphanumeric
runs, replaced by placeholders (strategy 3 of `findRelevantLearning`). -/
def patternOf (s : String) : String :=
  String.mk (replaceLongAlnumRuns (replaceDigitRuns s.data))

/-- JS `join(" ")`. -/
def joinSpace (ws : List (List Char)) : List Char := List.intercalate [' '] ws

/-- `findRelevantLearning(code, learningHistory)` from the inference
engine: exact match, then two-token prefix match in either direction (only
attempted when the code has at least two words), then structural-pattern
match, then substring containment in either direction; first match wins. -/
def findRelevantLearning (code : String) (learningHistory : List LearningSig) :
    Option LearningSig :=
  if learningHistory.length = 0 then none
  else
    match learningHistory.find? (fun l => l.original_code == code) with
    | some l => some l
    | none =>
      let codeWords := splitOnSpace code.data
      let pfxResult :=
        if 2 ≤ codeWords.length then
          let codePfx := joinSpace (codeWords.take (min 2 codeWords.length))
          learningHistory.find? (fun l =>
            jsStartsWith l.original_code.data codePfx ||
            jsStartsWith code.data
              (joinSpace ((splitOnSpace l.original_code.data).take
                (min 2 (splitOnSpace l.original_code.data).length))))
        else none
      match pfxResult with
      | some l => some l
      | none =>
        match learningHistory.find? (fun l => patternOf l.original_code == patternOf code) with
        | some l => some l
        | none =>
          learningHistory.find? (fun l =>
            jsIncludes code.data l.original_code.data ||
            jsIncludes l.original_code.data code.data)

/-! The four matching strategies, named as in the specification, and the
specification-side cascade (strict priority order, first match wins). -/

/-- Strategy 1 of the spec: exact code match. -/
def exactStrategy (code : String) (history : List LearningSig) : Option LearningSig :=
  history.find? (fun l => l.original_code == code)

/-- Strategy 2 of the spec: two-token prefix match in either direction,
applicable when the code has at least two words. -/
def twoTokenStrategy (code : String) (history : List LearningSig) : Option LearningSig :=
  if 2 ≤ (splitOnSpace code.data).length then
    history.find? (fun l =>
      jsStartsWith l.original_code.data
        (joinSpace ((splitOnSpace code.data).take (min 2 (splitOnSpace code.data).length))) ||
      jsStartsWith code.data
        (joinSpace ((splitOnSpace l.original_code.data).take
          (min 2 (splitOnSpace l.original_code.data).length))))
  else none

/-- Strategy 3 of the spec: structural-pattern match with digits and long
alphanumeric runs replaced by placeholders. -/
def patternStrategy (code : String) (history : List LearningSig) : Option LearningSig :=
  history.find? (fun l => patternOf l.original_code == patternOf code)

/-- Strategy 4 of the spec: substring containment in either direction. -/
def substringStrategy (code : String) (history : List LearningSig) : Option LearningSig :=
  history.find? (fun l =>
    jsIncludes code.data l.original_code.data ||
    jsIncludes l.original_code.data code.data)

/-- The first produced result of a priority-ordered list of strategy
outcomes. -/
def firstMatchingStrategy : List (Option LearningSig) → Option LearningSig
  | [] => none
  | s :: rest =>
    match s with
    | some l => some l
    | none => firstMatchingStrategy rest

/-- The learning lookup as the specification words it: the highest-priority
applicable strategy that matches decides the result. -/
def findRelevantLearningSpec (code : String) (history : List LearningSig) :
    Option LearningSig :=
  if history.length = 0 then none
  else
    firstMatchingStrategy
      [exactStrategy code history, twoTokenStrategy code history,
       patternStrategy code history, substringStrategy code history]

/-- C8.  `findRelevantLearning` returns `none` on an empty history; it
coincides with the specification's strict-priority cascade of the four
named strategies; and a freshly recorded learning record for code `X` is
returned by a lookup for `X` (via the exact-match strategy). -/
theorem C8_findRelevantLearning (code : String) (history : List LearningSig)
    (r : LearningSig) (rest : List LearningSig) :
    findRelevantLearning code [] = none ∧
    findRelevantLearning code history = findRelevantLearningSpec code history ∧
    findRelevantLearning r.original_code (r :: rest) = some r := by
  refine ⟨rfl, ?_, ?_⟩
  · unfold findRelevantLearning findRelevantLearningSpec
    by_cases hemp : history.length = 0
    · simp [hemp]
    · simp only [hemp, if_false]
      cases h1 : history.find? (fun l => l.original_code == code) with
      | some l =>
        simp [firstMatchingStrategy, exactStrategy, h1]
      | none =>
        simp only [exactStrategy, h1, firstMatchingStrategy, twoTokenStrategy]
        by_cases h2 : 2 ≤ (splitOnSpace code.data).length
        · simp only [h2, if_true]
          cases h3 : history.find? (fun l =>
              jsStartsWith l.original_code.data
                (joinSpace ((splitOnSpace code.data).take
                  (min 2 (splitOnSpace code.data).length))) ||
              jsStartsWith code.data
                (joinSpace ((splitOnSpace l.original_code.data).take
                  (min 2 (splitOnSpace l.original_code.data).length)))) with
          | some l => simp [h3]
          | none =>
            simp only [h3, firstMatchingStrategy, patternStrategy]
            cases h4 : history.find?
                (fun l => patternOf l.original_code == patternOf code) with
            | some l => simp [h4]
            | none =>
              simp only [h4, firstMatchingStrategy, substringStrategy]
              cases h5 : history.find? (fun l =>
                  jsIncludes code.data l.original_code.data ||
                  jsIncludes l.original_code.data code.data) <;> simp [h5]
        · simp only [h2, if_false]
          cases h4 : history.find?
              (fun l => patternOf l.original_code == patternOf code) with
          | some l => simp [h4, patternStrategy, firstMatchingStrategy]
          | none =>
            simp only [h4, patternStrategy, firstMatchingStrategy, substringStrategy]
            cases h5 : history.find? (fun l =>
                jsIncludes code.data l.original_code.data ||
                jsIncludes l.original_code.data code.data) <;> simp [h5]
  · unfold findRelevantLearning
    simp [List.find?_cons_of_pos]

/-! ## Inference engine control flow (`inferMerchant`, merchant-inference)

The external reasoning and search services are modelled by an environment:
`initialOutcome` is the outcome of locating and parsing a structured object
in the first reasoning response, `search` is the web-search collaborator
(it never throws — the source catches errors and returns an empty result
list), and `refinedOutcome` is the outcome for the re-issued, enriched
reasoning request. -/

/-- One ranked merchant hypothesis of the structured response. -/
structure MerchantHypothesis where
  name : String
  confidence : ℚ
  evidence_for : List String
  evidence_against : List String
deriving Repr, DecidableEq

/-- Structured reasoning carried by an inference (`InferenceReasoning`). -/
structure InferenceReasoning where
  structural_analysis : String
  value_analysis : String
  temporal_analysis : String
  hypotheses : List MerchantHypothesis
  needs_web_search : Bool
  search_terms : List String
deriving Repr, DecidableEq

/-- Final inference result (`MerchantInference`). -/
structure MerchantInference where
  code : String
  inferred_name : String
  confidence : ℚ
  type : String
  reasoning : InferenceReasoning
  reasoning_summary : String
  used_web_search : Bool
deriving Repr, DecidableEq

/-- A successfully parsed reasoning-service response (the JSON shape the
source destructures: analyses, hypotheses, the web-search fields and the
`final_inference` object, flattened here as `final_*`). -/
structure ParsedResponse where
  structural_analysis : String
  value_analysis : String
  temporal_analysis : String
  hypotheses : List MerchantHypothesis
  needs_web_search : Bool
  search_terms : List String
  final_name : String
  final_confidence : ℚ
  final_type : String
  final_reasoning_summary : String
deriving Repr, DecidableEq

/-- Outcome of extracting a structured object from a reasoning response:
no object located (or non-text content), an object located whose
`JSON.parse` throws, or a parsed response. -/
inductive ParseOutcome where
  | noJson
  | badJson
  | parsed (r : ParsedResponse)
deriving Repr, DecidableEq

/-- One web-search result. -/
structure SearchResult where
  title : String
  description : String
  url : String
deriving Repr, DecidableEq

/-- Environment of one `inferMerchant` call (external collaborators). -/
structure InferEnv where
  initialOutcome : ParseOutcome
  search : String → List SearchResult
  refinedOutcome : ParseOutcome

/-- The search query built by `inferMerchant`: the AI-suggested term when
present, else the fallback built from the code. -/
def searchQueryFor (context : TransactionContext) (r : ParsedResponse) : String :=
  match r.search_terms with
  | q :: _ => q
  | [] => context.code ++ " cobrança estabelecimento"

/-- The source's web-search escalation test (with `enableWebSearch`). -/
def shouldUseWebSearch (enableWebSearch : Bool) (r : ParsedResponse) : Bool :=
  enableWebSearch &&
    (r.needs_web_search || decide (r.final_confidence < 7 / 10) ||
      !r.search_terms.isEmpty)

/-- The escalation condition as a proposition: the AI requested a search,
or the initial confidence is below 0.7, or search terms were suggested. -/
def escalates (r : ParsedResponse) : Prop :=
  r.needs_web_search = true ∨ r.final_confidence < 7 / 10 ∨ r.search_terms ≠ []

instance (r : ParsedResponse) : Decidable (escalates r) := by
  unfold escalates
  infer_instance

/-- The escalation test decides exactly the escalation condition. -/
theorem shouldUseWebSearch_iff (r : ParsedResponse) :
    shouldUseWebSearch true r = true ↔ escalates r := by
  simp [shouldUseWebSearch, escalates, List.isEmpty_iff, or_assoc]

/-- The inference returned when no refined result is produced. -/
def initialInference (context : TransactionContext) (r : ParsedResponse) :
    MerchantInference :=
  { code := context.code
    inferred_name := r.final_name
    confidence := r.final_confidence
    type := r.final_type
    reasoning :=
      { structural_analysis := r.structural_analysis
        value_analysis := r.value_analysis
        temporal_analysis := r.temporal_analysis
        hypotheses := r.hypotheses
        needs_web_search := r.needs_web_search
        search_terms := r.search_terms }
    reasoning_summary := r.final_reasoning_summary
    used_web_search := false }

/-- The inference returned when a refined result was produced after a web
search with query `query`. -/
def refinedInference (context : TransactionContext) (query : String)
    (r : ParsedResponse) : MerchantInference :=
  { code := context.code
    inferred_name := r.final_name
    confidence := r.final_confidence
    type := r.final_type
    reasoning :=
      { structural_analysis := r.structural_analysis
        value_analysis := r.value_analysis
        temporal_analysis := r.temporal_analysis
        hypotheses := r.hypotheses
        needs_web_search := false
        search_terms := [query] }
    reasoning_summary := r.final_reasoning_summary ++ " (confirmado via busca web)"
    used_web_search := true }

/-- `inferMerchant(context, learningHistory, enableWebSearch)` control
flow.  A parse failure of the first response is a hard failure; on
escalation one search query is issued; a refined response is re-parsed
only when the search returned results; an unlocatable refined object falls
back to the initial inference while a located-but-unparseable one throws
(propagated as an error by the surrounding catch). -/
def inferMerchant (env : InferEnv) (context : TransactionContext)
    (learningHistory : List LearningSig) (enableWebSearch : Bool := true) :
    Except String MerchantInference :=
  match env.initialOutcome with
  | .noJson => .error "No JSON found in Claude response"
  | .badJson => .error "Failed to parse JSON"
  | .parsed r =>
    if shouldUseWebSearch enableWebSearch r then
      let searchQuery := searchQueryFor context r
      let results := env.search searchQuery
      if results.isEmpty then .ok (initialInference context r)
      else
        match env.refinedOutcome with
        | .parsed r' => .ok (refinedInference context searchQuery r')
        | .noJson => .ok (initialInference context r)
        | .badJson => .error "Failed to parse refined JSON"
    else .ok (initialInference context r)

/-- Parsed response used in the C7 scenarios: the AI explicitly requests a
web search. -/
def c7Response : ParsedResponse :=
  ⟨"sa", "va", "ta", [], true, [], "Uber", 1 / 2, "service", "resumo"⟩

/-- Refined parsed response used in the C7 witness. -/
def c7Refined : ParsedResponse :=
  ⟨"sa2", "va2", "ta2", [], false, [], "Uber Trip", 9 / 10, "service", "resumo 2"⟩

/-- Environment in which the refined response contains a structured object
that fails to parse. -/
def c7EnvBad : InferEnv :=
  ⟨.parsed c7Response, fun _ => [⟨"t", "d", "u"⟩], .badJson⟩

/-- Environment in which the refined response parses. -/
def c7EnvGood : InferEnv :=
  ⟨.parsed c7Response, fun _ => [⟨"t", "d", "u"⟩], .parsed c7Refined⟩

/-- C7 (counterexample).  When escalation fires and the search returned
results but the refined response contains a structured object that does
not parse, the per-context inference FAILS instead of keeping the
pre-search result: `JSON.parse` of the located object throws and the
surrounding catch converts it into a failure for that context. -/
theorem C7_counterexample :
    c7EnvBad.initialOutcome = .parsed c7Response ∧
    c7Response.needs_web_search = true ∧
    c7EnvBad.search (searchQueryFor uberContext c7Response) ≠ [] ∧
    inferMerchant c7EnvBad uberContext [] true =
      .error "Failed to parse refined JSON" := by
  refine ⟨rfl, rfl, by decide, rfl⟩

/-- C7 (amended).  Under the default `enableWebSearch = true`, with a
parsed initial response: no escalation (or an escalated search that
returned no results) yields the initial inference with
`used_web_search = false` — in the non-escalation case independently of
the search and refined collaborators; after a search that returned
results, a parsed refined response is accepted (`used_web_search = true`,
query preferring the AI-suggested term), an unlocatable refined object
keeps the pre-search result, and a located-but-unparseable refined object
fails that single context; `used_web_search` is `true` in a returned
inference exactly when a refined result was produced. -/
theorem C7_inferMerchant_escalation (env : InferEnv) (context : TransactionContext)
    (hist : List LearningSig) (r : ParsedResponse)
    (hinit : env.initialOutcome = .parsed r) :
    (¬ escalates r → ∀ env' : InferEnv, env'.initialOutcome = .parsed r →
      inferMerchant env' context hist true = .ok (initialInference context r)) ∧
    (escalates r → env.search (searchQueryFor context r) = [] →
      inferMerchant env context hist true = .ok (initialInference context r)) ∧
    (escalates r → env.search (searchQueryFor context r) ≠ [] →
      ∀ r', env.refinedOutcome = .parsed r' →
        inferMerchant env context hist true =
          .ok (refinedInference context (searchQueryFor context r) r')) ∧
    (escalates r → env.search (searchQueryFor context r) ≠ [] →
      env.refinedOutcome = .noJson →
      inferMerchant env context hist true = .ok (initialInference context r)) ∧
    (escalates r → env.search (searchQueryFor context r) ≠ [] →
      env.refinedOutcome = .badJson →
      inferMerchant env context hist true = .error "Failed to parse refined JSON") ∧
    (∀ inf, inferMerchant env context hist true = .ok inf →
      (inf.used_web_search = true ↔
        (escalates r ∧ env.search (searchQueryFor context r) ≠ [] ∧
          ∃ r', env.refinedOutcome = .parsed r'))) := by
  have hbool : ∀ b : Bool, b = true ∨ b = false := fun b => by
    cases b
    · exact Or.inr rfl
    · exact Or.inl rfl
  refine ⟨?_, ?_, ?_, ?_, ?_, ?_⟩
  · intro hne env' hinit'
    have hb : shouldUseWebSearch true r = false := by
      rcases hbool (shouldUseWebSearch true r) with h | h
      · exact absurd ((shouldUseWebSearch_iff r).mp h) hne
      · exact h
    simp [inferMerchant, hinit', hb]
  · intro hesc hempty
    have hb : shouldUseWebSearch true r = true := (shouldUseWebSearch_iff r).mpr hesc
    simp [inferMerchant, hinit, hb, hempty]
  · intro hesc hne r' href
    have hb : shouldUseWebSearch true r = true := (shouldUseWebSearch_iff r).mpr hesc
    have hne' : (env.search (searchQueryFor context r)).isEmpty = false := by
      simpa [List.isEmpty_iff] using hne
    simp [inferMerchant, hinit, hb, hne', href]
  · intro hesc hne href
    have hb : shouldUseWebSearch true r = true := (shouldUseWebSearch_iff r).mpr hesc
    have hne' : (env.search (searchQueryFor context r)).isEmpty = false := by
      simpa [List.isEmpty_iff] using hne
    simp [inferMerchant, hinit, hb, hne', href]
  · intro hesc hne href
    have hb : shouldUseWebSearch true r = true := (shouldUseWebSearch_iff r).mpr hesc
    have hne' : (env.search (searchQueryFor context r)).isEmpty = false := by
      simpa [List.isEmpty_iff] using hne
    simp [inferMerchant, hinit, hb, hne', href]
  · intro inf hok
    by_cases hesc : escalates r
    · have hb : shouldUseWebSearch true r = true := (shouldUseWebSearch_iff r).mpr hesc
      by_cases hempty : env.search (searchQueryFor context r) = []
      · have heq : inferMerchant env context hist true = .ok (initialInference context r) := by
          simp [inferMerchant, hinit, hb, hempty]
        have hinf : initialInference context r = inf := by
          simpa using heq.symm.trans hok
        rw [← hinf]
        simp [initialInference, hempty]
      · have hne' : (env.search (searchQueryFor context r)).isEmpty = false := by
          simpa [List.isEmpty_iff] using hempty
        cases href : env.refinedOutcome with
        | parsed r' =>
          have heq : inferMerchant env context hist true =
              .ok (refinedInference context (searchQueryFor context r) r') := by
            simp [inferMerchant, hinit, hb, hne', href]
          have hinf : refinedInference context (searchQueryFor context r) r' = inf := by
            simpa using heq.symm.trans hok
          rw [← hinf]
          exact ⟨fun _ => ⟨hesc, hempty, r', rfl⟩, fun _ => rfl⟩
        | noJson =>
          have heq : inferMerchant env context hist true = .ok (initialInference context r) := by
            simp [inferMerchant, hinit, hb, hne', href]
          have hinf : initialInference context r = inf := by
            simpa using heq.symm.trans hok
          rw [← hinf]
          constructor
          · intro hfalse
            simp [initialInference] at hfalse
          · rintro ⟨-, -, r', hr'⟩
            exact ParseOutcome.noConfusion hr'
        | badJson =>
          have heq : inferMerchant env context hist true =
              (Except.error "Failed to parse refined JSON" : Except String MerchantInference) := by
            simp [inferMerchant, hinit, hb, hne', href]
          exact absurd (heq.symm.trans hok) (by simp)
    · have hb : shouldUseWebSearch true r = false := by
        rcases hbool (shouldUseWebSearch true r) with h | h
        · exact absurd ((shouldUseWebSearch_iff r).mp h) hesc
        · exact h
      have heq : inferMerchant env context hist true = .ok (initialInference context r) := by
        simp [inferMerchant, hinit, hb]
      have hinf : initialInference context r = inf := by
        simpa using heq.symm.trans hok
      rw [← hinf]
      constructor
      · intro hfalse
        simp [initialInference] at hfalse
      · rintro ⟨hesc', -, -⟩
        exact absurd hesc' hesc

/-- Witness for `C7_inferMerchant_escalation` at the concrete escalating
environment with a parsing refined response. -/
theorem C7_inferMerchant_escalation_witness :
    inferMerchant c7EnvGood uberContext [] true =
      .ok (refinedInference uberContext (searchQueryFor uberContext c7Response)
        c7Refined) :=
  (C7_inferMerchant_escalation c7EnvGood uberContext [] c7Response rfl).2.2.1
    (by decide) (by decide) c7Refined rfl

/-! ## Discovery records and validation operations (db operations)

`db.merchantDiscovery.update(id, patch)` applies the field patch to the
record stored under `id`; the operations below are that patch at the
record level.  `created_at` / `validated_at` timestamps are `Nat` tokens. -/

/-- Status of a merchant discovery (`DiscoveryStatus`). -/
inductive DiscoveryStatus where
  | pending
  | confirmed
  | corrected
  | rejected
deriving Repr, DecidableEq

/-- A persisted merchant discovery record (`MerchantDiscovery`). -/
structure MerchantDiscovery where
  id : Nat
  raw_code : String
  context_snapshot : TransactionContext
  ai_reasoning : InferenceReasoning
  ai_final_inference : String
  ai_confidence : ℚ
  ai_merchant_type : String
  ai_reasoning_summary : String
  ai_used_web_search : Bool
  status : DiscoveryStatus
  user_validated_name : Option String
  user_feedback_notes : Option String
  impact_score : ℚ
  created_at : Nat
  validated_at : Option Nat
deriving Repr, DecidableEq

/-- `updateDiscoveryStatus(id, status, userValidatedName?,
userFeedbackNotes?)`: the field patch applied to the addressed record
(`now` is the `new Date()` timestamp token). -/
def updateDiscoveryStatus (now : Nat) (d : MerchantDiscovery)
    (status : DiscoveryStatus) (userValidatedName : Option String)
    (userFeedbackNotes : Option String) : MerchantDiscovery :=
  { d with
    status := status
    user_validated_name := userValidatedName
    user_feedback_notes := userFeedbackNotes
    validated_at := some now }

/-- `confirmDiscovery(id)`. -/
def confirmDiscovery (now : Nat) (d : MerchantDiscovery) : MerchantDiscovery :=
  updateDiscoveryStatus now d .confirmed none none

/-- `correctDiscovery(id, correctedName, notes?)`. -/
def correctDiscovery (now : Nat) (d : MerchantDiscovery) (correctedName : String)
    (notes : Option String) : MerchantDiscovery :=
  updateDiscoveryStatus now d .corrected (some correctedName) notes

/-- `rejectDiscovery(id, notes?)`. -/
def rejectDiscovery (now : Nat) (d : MerchantDiscovery) (notes : Option String) :
    MerchantDiscovery :=
  updateDiscoveryStatus now d .rejected none notes

/-- A confirmed discovery record, used to refute C6 as stated. -/
def c6Discovery : MerchantDiscovery :=
  { id := 1
    raw_code := "NETFLIX"
    context_snapshot := pixContext
    ai_reasoning := ⟨"", "", "", [], false, []⟩
    ai_final_inference := "Netflix"
    ai_confidence := 9 / 10
    ai_merchant_type := "subscription"
    ai_reasoning_summary := ""
    ai_used_web_search := false
    status := .confirmed
    user_validated_name := none
    user_feedback_notes := none
    impact_score := 0
    created_at := 0
    validated_at := some 1 }

/-- C6 (counterexample).  The provided validation operations carry no
terminal-status guard: applying `rejectDiscovery` to an already confirmed
discovery overwrites its terminal status with a different terminal
status. -/
theorem C6_counterexample :
    c6Discovery.status = .confirmed ∧
    (rejectDiscovery 99 c6Discovery none).status = .rejected ∧
    DiscoveryStatus.rejected ≠ DiscoveryStatus.confirmed :=
  ⟨rfl, rfl, by decide⟩

/-- C6 (amended).  The validation operations overwrite the status
unconditionally, so a record in a terminal status CAN be moved to a
different terminal status by a further call; what does hold is the
immutability half of the claim: every validation operation changes only
the status-transition fields (`status`, `user_validated_name`,
`user_feedback_notes`, `validated_at`) and leaves all inference and
snapshot fields unchanged, and the three named actions are exactly
`updateDiscoveryStatus` at their respective terminal status. -/
theorem C6_validation_operations (now : Nat) (d : MerchantDiscovery)
    (status : DiscoveryStatus) (name notes : Option String)
    (cName : String) :
    ((updateDiscoveryStatus now d status name notes).status = status ∧
     (updateDiscoveryStatus now d status name notes).user_validated_name = name ∧
     (updateDiscoveryStatus now d status name notes).user_feedback_notes = notes ∧
     (updateDiscoveryStatus now d status name notes).validated_at = some now) ∧
    ((updateDiscoveryStatus now d status name notes).id = d.id ∧
     (updateDiscoveryStatus now d status name notes).raw_code = d.raw_code ∧
     (updateDiscoveryStatus now d status name notes).context_snapshot =
       d.context_snapshot ∧
     (updateDiscoveryStatus now d status name notes).ai_reasoning = d.ai_reasoning ∧
     (updateDiscoveryStatus now d status name notes).ai_final_inference =
       d.ai_final_inference ∧
     (updateDiscoveryStatus now d status name notes).ai_confidence = d.ai_confidence ∧
     (updateDiscoveryStatus now d status name notes).ai_merchant_type =
       d.ai_merchant_type ∧
     (updateDiscoveryStatus now d status name notes).ai_reasoning_summary =
       d.ai_reasoning_summary ∧
     (updateDiscoveryStatus now d status name notes).ai_used_web_search =
       d.ai_used_web_search ∧
     (updateDiscoveryStatus now d status name notes).impact_score = d.impact_score ∧
     (updateDiscoveryStatus now d status name notes).created_at = d.created_at) ∧
    (confirmDiscovery now d = updateDiscoveryStatus now d .confirmed none none ∧
     correctDiscovery now d cName notes =
       updateDiscoveryStatus now d .corrected (some cName) notes ∧
     rejectDiscovery now d notes = updateDiscoveryStatus now d .rejected none notes) :=
  ⟨⟨rfl, rfl, rfl, rfl⟩,
   ⟨rfl, rfl, rfl, rfl, rfl, rfl, rfl, rfl, rfl, rfl, rfl⟩,
   ⟨rfl, rfl, rfl⟩⟩

/-! ## Discovery workflow (the merchant-discovery POST route)

The route is modelled as a pure function over a database state (the
transactions, discovery and learning tables) and an inference oracle
standing for `inferMerchantsBatch`: the oracle returns `none` for a
context whose reasoning call failed (`Promise.allSettled` drops it) and
`some inference` otherwise, preserving order. -/

/-- The persistent state consumed by the discovery route. -/
structure WorkflowState where
  transactions : List Transaction
  discoveries : List MerchantDiscovery
  learning : List LearningSig
  nextId : Nat
deriving Repr, DecidableEq

/-- The JSON payload of a successful discovery run. -/
structure DiscoveryResponse where
  discoveries_count : Nat
  total_codes : Nat
  discovery_ids : List Nat
deriving Repr, DecidableEq

/-- `getValidatedDiscoveries()`: discoveries with status confirmed or
corrected. -/
def getValidatedDiscoveries (st : WorkflowState) : List MerchantDiscovery :=
  st.discoveries.filter
    (fun d => d.status == DiscoveryStatus.confirmed ||
      d.status == DiscoveryStatus.corrected)

/-- `getDiscoveryByCode(code)`: first record with the given raw code. -/
def getDiscoveryByCode (st : WorkflowState) (code : String) :
    Option MerchantDiscovery :=
  st.discoveries.find? (fun d => d.raw_code == code)

/-- JS `Map` constructed from an entry list: a duplicate key keeps the
LAST entry, so lookup scans from the right. -/
def jsMapGet (entries : List (String × α)) (k : String) : Option α :=
  (entries.reverse.find? (fun p => p.1 == k)).map Prod.snd

/-- `filterContextsNeedingInference(contexts, existingInferences)` from
the inference engine: a context needs inference iff there is no existing
record, or the existing record is unconfirmed with confidence < 0.7. -/
def filterContextsNeedingInference (contexts : List TransactionContext)
    (existingInferences : List (String × ℚ × Bool)) : List TransactionContext :=
  contexts.filter (fun context =>
    match jsMapGet existingInferences context.code with
    | none => true
    | some existing =>
      if existing.2 then false
      else if existing.1 < 7 / 10 then true
      else false)

/-- The `contexts.get(code)` lookup of the saving loop (keys are unique by
construction of the grouping map). -/
def ctxLookup (contexts : List (String × TransactionContext)) (code : String) :
    Option TransactionContext :=
  (contexts.find? (fun p => p.1 == code)).map Prod.snd

/-- The `pending` discovery record persisted by the saving loop. -/
def mkPendingDiscovery (id : Nat) (inference : MerchantInference)
    (context : TransactionContext) (impactScore : ℚ) : MerchantDiscovery :=
  { id := id
    raw_code := inference.code
    context_snapshot := context
    ai_reasoning := inference.reasoning
    ai_final_inference := inference.inferred_name
    ai_confidence := inference.confidence
    ai_merchant_type := inference.type
    ai_reasoning_summary := inference.reasoning_summary
    ai_used_web_search := inference.used_web_search
    status := .pending
    user_validated_name := none
    user_feedback_notes := none
    impact_score := impactScore
    created_at := 0
    validated_at := none }

/-- One iteration of the saving loop: skip (but collect the existing id)
when a discovery already exists for the code, skip silently when the
context is missing, else persist a new `pending` discovery. -/
def saveInferenceStep (contexts : List (String × TransactionContext))
    (acc : WorkflowState × List Nat) (inference : MerchantInference) :
    WorkflowState × List Nat :=
  match getDiscoveryByCode acc.1 inference.code with
  | some existing => (acc.1, acc.2 ++ [existing.id])
  | none =>
    match ctxLookup contexts inference.code with
    | none => acc
    | some context =>
      let impactScore := calculateImpactScore context inference.confidence
      let newRec := mkPendingDiscovery acc.1.nextId inference context impactScore
      ({ acc.1 with
          discoveries := acc.1.discoveries ++ [newRec]
          nextId := acc.1.nextId + 1 },
        acc.2 ++ [acc.1.nextId])

/-- The merchant-discovery POST route: analyze, filter against validated
discoveries, batch-infer, save with lookup-before-insert, and respond.
The returned `discoveries_count` is `inferences.length`, exactly as in
the source. -/
def runDiscoveryPost (oracle : TransactionContext → Option MerchantInference)
    (st : WorkflowState) : Except String DiscoveryResponse × WorkflowState :=
  if st.transactions.isEmpty then (.error "No transactions found", st)
  else
    let contexts := analyzeAllTransactions st.transactions
    let existingMap := (getValidatedDiscoveries st).map
      (fun d => (d.raw_code, (d.ai_confidence,
        d.status == DiscoveryStatus.confirmed ||
          d.status == DiscoveryStatus.corrected)))
    let contextsArray := contexts.map Prod.snd
    let needing := filterContextsNeedingInference contextsArray existingMap
    if needing.isEmpty then (.ok ⟨0, contextsArray.length, []⟩, st)
    else
      let inferences := needing.filterMap oracle
      let saved := inferences.foldl (saveInferenceStep contexts) (st, [])
      (.ok ⟨inferences.length, contextsArray.length, saved.2⟩, saved.1)

/-- The inference oracle of the C2 scenario: every context is inferred
successfully. -/
def c2Oracle (context : TransactionContext) : Option MerchantInference :=
  some
    { code := context.code
      inferred_name := "Netflix"
      confidence := 9 / 10
      type := "subscription"
      reasoning := ⟨"", "", "", [], false, []⟩
      reasoning_summary := ""
      used_web_search := false }

/-- An existing REJECTED discovery for the code `"NETFLIX"`: rejected
records are not validated, so the code is re-inferred, but the
lookup-before-insert in the saving loop still finds the record and skips
creation. -/
def c2Rejected : MerchantDiscovery :=
  { id := 7
    raw_code := "NETFLIX"
    context_snapshot := pixContext
    ai_reasoning := ⟨"", "", "", [], false, []⟩
    ai_final_inference := "Netflix"
    ai_confidence := 1 / 2
    ai_merchant_type := "subscription"
    ai_reasoning_summary := ""
    ai_used_web_search := false
    status := .rejected
    user_validated_name := none
    user_feedback_notes := none
    impact_score := 0
    created_at := 0
    validated_at := some 1 }

/-- The database state of the C2 scenario: one NETFLIX transaction and the
rejected NETFLIX discovery. -/
def c2State : WorkflowState :=
  ⟨[⟨"n1", 30, "NETFLIX", -40, "debit"⟩], [c2Rejected], [], 8⟩

/-- The same state with the NETFLIX discovery CONFIRMED instead: then the
code is filtered out before inference. -/
def c2ConfirmedState : WorkflowState :=
  ⟨[⟨"n1", 30, "NETFLIX", -40, "debit"⟩],
    [{ c2Rejected with status := .confirmed }], [], 8⟩

/-- C2 (bug demonstration).  On the C2 scenario the route succeeds with
`discoveries_count = 1` although NO new `MerchantDiscovery` record is
created: the single inference is skipped by the lookup-before-insert
(the rejected record already holds the code), yet the response counts it
— the source returns `inferences.length`, contradicting its own
documentation of the field ("Number of new discoveries made") and the
spec.  The second half of the claim does hold: when every code already
has a confirmed discovery, a run returns `discoveries_count = 0`. -/
theorem C2_discoveries_count_bug :
    (runDiscoveryPost c2Oracle c2State).1 =
      .ok ⟨1, 1, [7]⟩ ∧
    (runDiscoveryPost c2Oracle c2State).2.discoveries.length =
      c2State.discoveries.length ∧
    (runDiscoveryPost c2Oracle c2ConfirmedState).1 = .ok ⟨0, 1, []⟩ := by
  exact ⟨rfl, rfl, rfl⟩

end FinanceAnalyzer
